import Mathlib

/-!
Shallow embedding of the CineSync watch-party servers and client reconciler.

Numbers are modelled as rationals (`ℚ`): all arithmetic in the source is
linear (additions, subtractions, one division by the literal 1000 and
multiplications), so rationals are an exact model of the IEEE doubles on
every input the claims quantify over.  Wall-clock instants (`Date.now()`)
are milliseconds; playback positions are seconds.

JavaScript `Map` objects preserve insertion order: `Map.set` replaces the
value in place when the key exists and appends otherwise, `Map.delete`
removes the entry, and `map.keys().next().value` is the first key in
insertion order.  We model a `Map` as an association list together with
the operations `aset`, `adelete` and `firstKey` below.

Arguments that the push-mode server passes through JavaScript's
`Number(x) || d` coercion are modelled by `JsNum`: either an actual number
or `nan` (the coercion result for a missing or non-numeric argument).
-/

/-- Playback status: the `status` field of a playback snapshot is the string
`'playing'` or `'paused'` in the source. -/
inductive Status where
  | playing
  | paused
deriving DecidableEq, Repr

/-- PlaybackSnapshot `{ status, at, rate, ts }` (the `at` field is spelled
`at_` because `at` is a Lean keyword). `at_` is in seconds, `ts` in
milliseconds of wall-clock time. -/
structure PlaybackSnapshot where
  status : Status
  at_ : ℚ
  rate : ℚ
  ts : ℚ
deriving DecidableEq, Repr

/-- Source descriptor `{ type, url, videoId }`; `videoId` is `null`able. -/
structure Source where
  type : String
  url : String
  videoId : Option String
deriving DecidableEq, Repr

/-- Participant entry stored by the push-mode server (`server.js`):
`{ id, name }`. -/
structure ParticipantPush where
  id : String
  name : String
deriving DecidableEq, Repr

/-- Participant entry stored by the pull-mode server (`index.js`):
`{ id, name, lastSeen }`. -/
structure ParticipantPull where
  id : String
  name : String
  lastSeen : ℚ
deriving DecidableEq, Repr

/-- Chat message stored by the pull-mode server (`index.js`): the `id`
field is `Date.now().toString()`, modelled by the instant itself.  The
text is a sequence of UTF-16 units, modelled as a `List Char`. -/
structure ChatMessage where
  id : ℚ
  text : List Char
  name : String
  userId : String
  timestamp : ℚ
deriving DecidableEq, Repr

/-- Model of a JavaScript number-valued argument after `Number(_)`
coercion: a genuine number, or `nan` for a missing/non-numeric argument. -/
inductive JsNum where
  | num (q : ℚ)
  | nan
deriving DecidableEq, Repr

/-- JavaScript `Number(x) || 0`: `NaN` (falsy) falls back to `0`; a number
(including `0`) is itself.  Used for `at`/`to` arguments in `server.js`. -/
def jsOr0 : JsNum → ℚ
  | .num q => q
  | .nan => 0

/-- JavaScript `Number(x) || 1`: `NaN` and `0` are falsy and fall back to
`1`.  Used for `rate` arguments in `server.js`. -/
def jsOr1 : JsNum → ℚ
  | .num q => if q = 0 then 1 else q
  | .nan => 1

/-- JavaScript `Number(x) || d` with a runtime default `d` (the server's
`Date.now()`): `NaN` and `0` fall back to `d`.  Used for `ts` arguments. -/
def jsOrD (x : JsNum) (d : ℚ) : ℚ :=
  match x with
  | .num q => if q = 0 then d else q
  | .nan => d

/-- Keys of an association list, in insertion order. -/
def keys {α : Type} (l : List (String × α)) : List String :=
  l.map Prod.fst

/-- JavaScript `Map.set`: replace in place when the key is present,
append otherwise. -/
def aset {α : Type} (k : String) (v : α) : List (String × α) → List (String × α)
  | [] => [(k, v)]
  | (k', v') :: t => if k' = k then (k, v) :: t else (k', v') :: aset k v t

/-- JavaScript `Map.delete`: remove the entry with the given key. -/
def adelete {α : Type} (k : String) (l : List (String × α)) : List (String × α) :=
  l.filter (fun p => p.1 ≠ k)

/-- JavaScript `map.keys().next()`: the first key in insertion order,
`none` when the map is empty (`next.done`). -/
def firstKey {α : Type} (l : List (String × α)) : Option String :=
  l.head?.map Prod.fst

/-- Room state of the push-mode server (`server.js`):
`{ id, hostId, participants, source, playback }`. -/
structure RoomPush where
  id : String
  hostId : Option String
  participants : List (String × ParticipantPush)
  source : Option Source
  playback : PlaybackSnapshot
deriving DecidableEq, Repr

/-- Room state of the pull-mode server (`index.js`): additionally stores
the bounded chat history `messages`. -/
structure RoomPull where
  id : String
  hostId : Option String
  participants : List (String × ParticipantPull)
  source : Option Source
  playback : PlaybackSnapshot
  messages : List ChatMessage
deriving DecidableEq, Repr

/-- The room-code alphabet `'ABCDEFGHJKLMNPQRSTUVWXYZ23456789'` of
`makeRoomId` (`server.js` line 82 and `index.js` line 17). -/
def roomAlphabet : List Char :=
  "ABCDEFGHJKLMNPQRSTUVWXYZ23456789".toList

/-- `makeRoomId` (`server.js` lines 81-86): six independent draws
`alphabet[Math.floor(Math.random()*alphabet.length)]`, concatenated.  The
random draws are modelled as an explicit argument of six indices into the
alphabet. -/
def makeRoomId (draws : Fin 6 → Fin 32) : String :=
  String.mk ((List.finRange 6).map
    (fun i => roomAlphabet.get ⟨(draws i).val, lt_of_lt_of_le (draws i).isLt (by decide)⟩))

/-- Fresh room created by `getOrCreateRoom` in `server.js` (lines 88-101):
`{ id, hostId: null, participants: new Map(), source: null,
playback: { status:'paused', at:0, rate:1, ts: Date.now() } }`. -/
def freshRoomPush (rid : String) (now : ℚ) : RoomPush :=
  { id := rid
    hostId := none
    participants := []
    source := none
    playback := ⟨.paused, 0, 1, now⟩ }

/-- Fresh room created by `getOrCreateRoom` in `index.js` (lines 23-36);
additionally `messages: []`. -/
def freshRoomPull (rid : String) (now : ℚ) : RoomPull :=
  { id := rid
    hostId := none
    participants := []
    source := none
    playback := ⟨.paused, 0, 1, now⟩
    messages := [] }

/-- `getOrCreateRoom(roomId)` of `server.js` (lines 88-101) acting on the
registry `rooms : Map`.  A missing or empty (falsy) `roomId` argument is
modelled by the empty string: the fresh room's id is
`roomId || makeRoomId()`.  Returns the room together with the updated
registry. -/
def getOrCreateRoom (registry : List (String × RoomPush)) (roomId : String)
    (draws : Fin 6 → Fin 32) (now : ℚ) : RoomPush × List (String × RoomPush) :=
  match (registry.lookup roomId) with
  | some room => (room, registry)
  | none =>
      let rid := if roomId = "" then makeRoomId draws else roomId
      let room := freshRoomPush rid now
      (room, aset room.id room registry)

/-- `effectiveTime(playback)` of `server.js` (lines 117-121), with the
wall clock `Date.now()` made an explicit parameter `now`:
if not playing return `at`, else `at + (now - ts)/1000 * (rate || 1)`. -/
def effectiveTime (playback : PlaybackSnapshot) (now : ℚ) : ℚ :=
  if playback.status ≠ .playing then playback.at_
  else playback.at_ + (now - playback.ts) / 1000 * (if playback.rate = 0 then 1 else playback.rate)

/-- Body of the `room:join` handler of `server.js` (lines 127-142) acting
on its room: `participants.set(socket.id, { id: socket.id, name: name || 'Guest' });
if (!room.hostId) room.hostId = socket.id;`. -/
def joinRoom (room : RoomPush) (sid : String) (name : String) : RoomPush :=
  { room with
    participants := aset sid ⟨sid, if name = "" then "Guest" else name⟩ room.participants
    hostId := if room.hostId = none then some sid else room.hostId }

/-- Shared body of the `room:leave` (lines 144-158) and `disconnect`
(lines 243-254) handlers of `server.js`: delete the participant, and when
the leaver was the host reassign `hostId` to the first remaining
participant key (or `null` when none remain). -/
def leaveRoom (room : RoomPush) (sid : String) : RoomPush :=
  let ps := adelete sid room.participants
  { room with
    participants := ps
    hostId := if room.hostId = some sid then firstKey ps else room.hostId }

/-- `role:become-host` handler of `server.js` (lines 160-172): only when
the room currently has no host does the caller become host; otherwise the
event is ignored. -/
def becomeHost (room : RoomPush) (sid : String) : RoomPush :=
  if room.hostId = none then { room with hostId := some sid } else room

/-- Payload of `player:set-source`; in the source any of the fields may be
absent (falsy), modelled by the empty string / `none`. -/
structure SourcePayload where
  type : String
  url : String
  videoId : Option String
deriving DecidableEq, Repr

/-- `player:set-source` handler of `server.js` (lines 174-183): dropped
unless the caller is host; dropped when `type` or `url` is falsy; else
stores the source and resets playback to paused-at-zero stamped now. -/
def setSourcePush (room : RoomPush) (sid : String) (payload : SourcePayload) (now : ℚ) : RoomPush :=
  if room.hostId ≠ some sid then room
  else if payload.type = "" ∨ payload.url = "" then room
  else
    { room with
      source := some ⟨payload.type, payload.url, payload.videoId⟩
      playback := ⟨.paused, 0, 1, now⟩ }

/-- `player:play` handler of `server.js` (lines 185-191):
`{ status:'playing', at: Number(at) || 0, rate: Number(rate) || 1,
ts: Number(ts) || Date.now() }`; dropped unless the caller is host. -/
def playPush (room : RoomPush) (sid : String) (atArg rateArg tsArg : JsNum) (now : ℚ) : RoomPush :=
  if room.hostId ≠ some sid then room
  else { room with playback := ⟨.playing, jsOr0 atArg, jsOr1 rateArg, jsOrD tsArg now⟩ }

/-- `player:pause` handler of `server.js` (lines 193-199): spread of the
prior playback with `status:'paused'`, `at: Number(at) || 0`,
`ts: Number(ts) || Date.now()`; dropped unless the caller is host. -/
def pausePush (room : RoomPush) (sid : String) (atArg tsArg : JsNum) (now : ℚ) : RoomPush :=
  if room.hostId ≠ some sid then room
  else { room with playback :=
    { room.playback with status := .paused, at_ := jsOr0 atArg, ts := jsOrD tsArg now } }

/-- `player:seek` handler of `server.js` (lines 201-207): spread of the
prior playback with `at: Number(to) || 0`, `ts: Number(ts) || Date.now()`;
dropped unless the caller is host. -/
def seekPush (room : RoomPush) (sid : String) (toArg tsArg : JsNum) (now : ℚ) : RoomPush :=
  if room.hostId ≠ some sid then room
  else { room with playback :=
    { room.playback with at_ := jsOr0 toArg, ts := jsOrD tsArg now } }

/-- `player:rate` handler of `server.js` (lines 209-215): spread of the
prior playback with `rate: Number(rate) || 1`, `ts: Number(ts) || Date.now()`;
dropped unless the caller is host. -/
def ratePush (room : RoomPush) (sid : String) (rateArg tsArg : JsNum) (now : ℚ) : RoomPush :=
  if room.hostId ≠ some sid then room
  else { room with playback :=
    { room.playback with rate := jsOr1 rateArg, ts := jsOrD tsArg now } }

/-- Text of the payload broadcast by the `chat:message` handler of
`server.js` (lines 232-241): `String(text).slice(0, 1000)`. -/
def chatBroadcastText (text : List Char) : List Char :=
  text.take 1000

/-- Result of a pull-mode (`index.js`) API call.  `unauthorized` is the
HTTP 403 response (`Only host can ...`), `notFound` the 404. -/
inductive ApiResult where
  | ok
  | notFound
  | unauthorized
deriving DecidableEq, Repr

/-- `POST /api/room/join` of `index.js` (lines 44-60) acting on its room:
`participants.set(userId, { id: userId, name: name || 'Guest', lastSeen: Date.now() });
if (!room.hostId) room.hostId = userId;`. -/
def joinPull (room : RoomPull) (userId : String) (name : String) (now : ℚ) : RoomPull :=
  { room with
    participants :=
      aset userId ⟨userId, (if name = "" then "Guest" else name), now⟩ room.participants
    hostId := if room.hostId = none then some userId else room.hostId }

/-- `POST /api/room/:roomId/source` of `index.js` (lines 82-98) acting on
an existing room: 403 unless `room.hostId === userId`; on success stores
the source and resets playback to `{ paused, 0, 1, now }`. -/
def setSourceApi (room : RoomPull) (userId : String) (src : Source) (now : ℚ) :
    RoomPull × ApiResult :=
  if room.hostId ≠ some userId then (room, .unauthorized)
  else ({ room with source := some src, playback := ⟨.paused, 0, 1, now⟩ }, .ok)

/-- Playback command of `POST /api/room/:roomId/playback` (`index.js`
lines 101-129): the `action` field with its data. -/
inductive PBCmd where
  | play (atv rate : ℚ)
  | pause (atv : ℚ)
  | seek (tov : ℚ)
  | setRate (rate : ℚ)
deriving DecidableEq, Repr

/-- `POST /api/room/:roomId/playback` of `index.js` (lines 101-129) acting
on an existing room: 403 unless `room.hostId === userId`; otherwise the
`switch (action)` of lines 113-126.  `play` applies `data.rate || 1`;
`pause` keeps the prior rate; `seek` and `rate` spread the prior
snapshot.  Every branch stamps `ts: Date.now()`. -/
def playbackApi (room : RoomPull) (userId : String) (cmd : PBCmd) (now : ℚ) :
    RoomPull × ApiResult :=
  if room.hostId ≠ some userId then (room, .unauthorized)
  else
    let pb :=
      match cmd with
      | .play atv rate => ⟨.playing, atv, if rate = 0 then 1 else rate, now⟩
      | .pause atv => ⟨.paused, atv, room.playback.rate, now⟩
      | .seek tov => { room.playback with at_ := tov, ts := now }
      | .setRate rate => { room.playback with rate := rate, ts := now }
    ({ room with playback := pb }, .ok)

/-- Chat message built by `POST /api/room/:roomId/chat` (`index.js` lines
140-146): `{ id: Date.now().toString(), text: String(text).slice(0, 1000),
name: name || 'Anon', userId, timestamp: Date.now() }`. -/
def mkChatMessage (userId : String) (text : List Char) (name : String) (now : ℚ) : ChatMessage :=
  { id := now
    text := text.take 1000
    name := if name = "" then "Anon" else name
    userId := userId
    timestamp := now }

/-- `POST /api/room/:roomId/chat` of `index.js` (lines 132-154) acting on
an existing room: push the truncated message, then
`if (messages.length > 100) messages = messages.slice(-50)`. -/
def postChat (room : RoomPull) (userId : String) (text : List Char) (name : String)
    (now : ℚ) : RoomPull :=
  let ms := room.messages ++ [mkChatMessage userId text name now]
  { room with messages := if ms.length > 100 then ms.drop (ms.length - 50) else ms }

/-- Hard-seek target of the client reconciler, from `applyPlayback`
(`public/app.js`, combined source lines 538-548):
`target = status === 'playing' ? (at + (nowMs()-ts)/1000) : at`.
The same expression appears in the `sync:state` handler (lines 307-329)
and in the Vercel frontend copy. -/
def applyPlaybackTarget (pb : PlaybackSnapshot) (now : ℚ) : ℚ :=
  if pb.status = .playing then pb.at_ + (now - pb.ts) / 1000 else pb.at_

/-- Modelled from the spec (for comparison only, section 4.5 step 1 /
claim C1): `target = status=='playing' ? at + (now - ts)/1000 * rate : at`,
i.e. the latency compensation scaled by the playback rate. -/
def specTargetWithRate (pb : PlaybackSnapshot) (now : ℚ) : ℚ :=
  if pb.status = .playing then pb.at_ + (now - pb.ts) / 1000 * pb.rate else pb.at_

/-- The host-membership predicate of claim C6, as an executable check:
`hostId`, when non-null, is a key of the participants map. -/
def hostKeyInv (hostId : Option String) (ks : List String) : Bool :=
  match hostId with
  | none => true
  | some h => decide (h ∈ ks)

/-- C6 invariant on a push-mode room. -/
def roomInvPush (room : RoomPush) : Bool :=
  hostKeyInv room.hostId (keys room.participants)

/-- C6 invariant on a pull-mode room. -/
def roomInvPull (room : RoomPull) : Bool :=
  hostKeyInv room.hostId (keys room.participants)

/-- Concrete push-mode room used to evaluate the theorems: host `"a"`,
participants `"a"` and `"b"`, a YouTube source, playing at 7s (rate 2)
since instant 1000. -/
def sampleRoomPush : RoomPush :=
  { id := "QQQQQQ"
    hostId := some "a"
    participants := [("a", ⟨"a", "Alice"⟩), ("b", ⟨"b", "Bob"⟩)]
    source := some ⟨"youtube", "https://www.youtube.com/watch?v=x", some "x"⟩
    playback := ⟨.playing, 7, 2, 1000⟩ }

/-- Concrete pull-mode room used to evaluate the theorems: host `"u1"`,
participants `"u1"` and `"u2"`, no source, paused at 3, empty history. -/
def sampleRoomPull : RoomPull :=
  { id := "ZZZZZZ"
    hostId := some "u1"
    participants := [("u1", ⟨"u1", "Ann", 5⟩), ("u2", ⟨"u2", "Ben", 6⟩)]
    source := none
    playback := ⟨.paused, 3, 1, 500⟩
    messages := [] }

/-- The key just written by `aset` is among the keys afterwards. -/
theorem mem_keys_aset_self {α : Type} (k : String) (v : α) (l : List (String × α)) :
    k ∈ keys (aset k v l) := by
  induction l with
  | nil => simp [aset, keys]
  | cons p t ih =>
      obtain ⟨k', v'⟩ := p
      by_cases h : k' = k
      · simp [aset, keys, h]
      · simpa [aset, keys, h] using Or.inr (by simpa [keys] using ih)

/-- `aset` never removes a key. -/
theorem mem_keys_aset_of_mem {α : Type} {a k : String} {v : α} {l : List (String × α)}
    (h : a ∈ keys l) : a ∈ keys (aset k v l) := by
  induction l with
  | nil => simp [keys] at h
  | cons p t ih =>
      obtain ⟨k', v'⟩ := p
      rw [keys, List.map_cons, List.mem_cons] at h
      by_cases hk : k' = k
      · rw [aset, if_pos hk, keys, List.map_cons, List.mem_cons]
        rcases h with h | h
        · exact Or.inl (h.trans hk)
        · exact Or.inr h
      · rw [aset, if_neg hk, keys, List.map_cons, List.mem_cons]
        rcases h with h | h
        · exact Or.inl h
        · exact Or.inr (ih h)

/-- Writing the same key twice collapses to the last write (JavaScript
`Map.set` semantics). -/
theorem aset_aset_same {α : Type} (k : String) (v₁ v₂ : α) (l : List (String × α)) :
    aset k v₂ (aset k v₁ l) = aset k v₂ l := by
  induction l with
  | nil => simp [aset]
  | cons p t ih =>
      obtain ⟨k', v'⟩ := p
      by_cases h : k' = k
      · simp [aset, h]
      · simp [aset, h, ih]

/-- Deleting one key keeps every other key. -/
theorem mem_keys_adelete {α : Type} {a k : String} {l : List (String × α)}
    (h : a ∈ keys l) (hne : a ≠ k) : a ∈ keys (adelete k l) := by
  simp only [keys, List.mem_map] at h
  obtain ⟨p, hp, rfl⟩ := h
  simp only [keys, adelete, List.mem_map]
  exact ⟨p, List.mem_filter.2 ⟨hp, by simpa using hne⟩, rfl⟩

/-- The first key of a non-empty association list is one of its keys. -/
theorem firstKey_mem {α : Type} {l : List (String × α)} {a : String}
    (h : firstKey l = some a) : a ∈ keys l := by
  cases l with
  | nil => simp [firstKey] at h
  | cons p t =>
      simp only [firstKey, List.head?_cons, Option.map_some] at h
      obtain rfl : p.1 = a := Option.some.inj h
      simp [keys]

/-- C1 counterexample: for the snapshot `{status:'playing', at:0, rate:2,
ts:0}` observed at instant 1000, the client reconciler's hard-seek target
is 1 (latency compensation NOT scaled by the rate), while the claimed
formula `at + (now - ts)/1000 * rate` gives 2.  The claim as stated is
therefore false on the code. -/
theorem C1_counterexample :
    applyPlaybackTarget ⟨.playing, 0, 2, 0⟩ 1000 = 1 ∧
    specTargetWithRate ⟨.playing, 0, 2, 0⟩ 1000 = 2 ∧
    applyPlaybackTarget ⟨.playing, 0, 2, 0⟩ 1000 ≠
      specTargetWithRate ⟨.playing, 0, 2, 0⟩ 1000 := by
  refine ⟨?_, ?_, ?_⟩ <;> norm_num [applyPlaybackTarget, specTargetWithRate]

/-- C1 (amended): for every incoming snapshot with status `'playing'`, the
client reconciler (`applyPlayback`) computes the hard-seek target as
`at + (now - ts)/1000`, i.e. the latency compensation is NOT scaled by the
playback rate; the rate is applied separately via `setRate`. -/
theorem C1_target_latency_unscaled (pb : PlaybackSnapshot) (now : ℚ)
    (h : pb.status = .playing) :
    applyPlaybackTarget pb now = pb.at_ + (now - pb.ts) / 1000 := by
  simp [applyPlaybackTarget, h]

/-- C1 witness: the amended theorem evaluated on a concrete playing
snapshot. -/
theorem C1_witness :
    applyPlaybackTarget ⟨.playing, 7, 2, 1000⟩ 3000 = 7 + (3000 - 1000) / 1000 :=
  C1_target_latency_unscaled ⟨.playing, 7, 2, 1000⟩ 3000 rfl

/-- C2: a caller who is not the room's host can mutate neither playback
nor source: the pull-mode endpoints return `Unauthorized` with the room
unchanged, and the push-mode handlers drop the event with the room
unchanged, for each of set-source, play, pause, seek and set-rate. -/
theorem C2_unauthorized_noop (rq : RoomPull) (rp : RoomPush) (userId sid : String)
    (now : ℚ) (hq : rq.hostId ≠ some userId) (hp : rp.hostId ≠ some sid) :
    (∀ src, setSourceApi rq userId src now = (rq, .unauthorized)) ∧
    (∀ cmd, playbackApi rq userId cmd now = (rq, .unauthorized)) ∧
    (∀ payload, setSourcePush rp sid payload now = rp) ∧
    (∀ a r t, playPush rp sid a r t now = rp) ∧
    (∀ a t, pausePush rp sid a t now = rp) ∧
    (∀ a t, seekPush rp sid a t now = rp) ∧
    (∀ r t, ratePush rp sid r t now = rp) := by
  refine ⟨?_, ?_, ?_, ?_, ?_, ?_, ?_⟩ <;> intros <;>
    simp [setSourceApi, playbackApi, setSourcePush, playPush, pausePush, seekPush,
      ratePush, hq, hp]

/-- C2 witness: the non-host caller `"zz"` issuing `pause` against the
sample pull-mode room is rejected and the room is unchanged. -/
theorem C2_witness :
    playbackApi sampleRoomPull "zz" (.pause 1) 7 = (sampleRoomPull, .unauthorized) :=
  ((C2_unauthorized_noop sampleRoomPull sampleRoomPush "zz" "zz" 7
    (by decide) (by decide)).2.1) (.pause 1)

/-- C3: `effectiveTime` is a pure function; on a paused snapshot it
returns `at` regardless of the instant, and on a playing snapshot with
positive rate, evaluated Δ seconds (Δ·1000 ms) after `ts`, it returns
`at + Δ * rate`. -/
theorem C3_effectivePosition (pb : PlaybackSnapshot) (now Δ : ℚ) :
    (pb.status = .paused → effectiveTime pb now = pb.at_) ∧
    (pb.status = .playing → 0 < pb.rate → 0 ≤ Δ →
      effectiveTime pb (pb.ts + Δ * 1000) = pb.at_ + Δ * pb.rate) := by
  constructor
  · intro h
    simp [effectiveTime, h]
  · intro h hr _
    have hne : pb.rate ≠ 0 := ne_of_gt hr
    simp only [effectiveTime, h, ne_eq, not_true_eq_false, if_false, if_neg hne]
    field_simp

/-- C3 witness: a paused snapshot ignores the clock; a playing snapshot at
rate 2 advances by `3 * 2` seconds over 3000 ms. -/
theorem C3_witness :
    effectiveTime ⟨.paused, 3, 1, 500⟩ 99999 = 3 ∧
    effectiveTime ⟨.playing, 7, 2, 1000⟩ (1000 + 3 * 1000) = 7 + 3 * 2 :=
  ⟨(C3_effectivePosition ⟨.paused, 3, 1, 500⟩ 99999 0).1 rfl,
   (C3_effectivePosition ⟨.playing, 7, 2, 1000⟩ 0 3).2 rfl (by decide) (by decide)⟩

/-- C4 counterexample: (a) the restricted alphabet
`'ABCDEFGHJKLMNPQRSTUVWXYZ23456789'` contains 32 symbols, not 33 as
claimed; (b) joining with the previously unknown roomId `"hi"` creates a
registry room whose id is the caller-supplied `"hi"`, which is 2
characters long, so not every room in the registry has a 6-character
alphabet id. -/
theorem C4_counterexample :
    roomAlphabet.length = 32 ∧ roomAlphabet.length ≠ 33 ∧
    (getOrCreateRoom [] "hi" (fun _ => 0) 0).1.id = "hi" ∧
    (getOrCreateRoom [] "hi" (fun _ => 0) 0).1.id.length ≠ 6 := by
  refine ⟨by decide, by decide, ?_, ?_⟩ <;> decide

/-- C4 (amended): every GENERATED room id (`makeRoomId`) is exactly 6
characters drawn from the restricted 32-symbol alphabet
`{A-H,J-N,P-Z,2-9}`; a room created by `getOrCreateRoom` without a
caller-supplied id gets such a generated id, while a room created for a
previously unknown caller-supplied roomId adopts that id verbatim. -/
theorem C4_room_id_format (draws : Fin 6 → Fin 32)
    (registry : List (String × RoomPush)) (rid : String) (now : ℚ)
    (hne : rid ≠ "") (hnew : registry.lookup rid = none) :
    (makeRoomId draws).length = 6 ∧
    (∀ c ∈ (makeRoomId draws).toList, c ∈ roomAlphabet) ∧
    roomAlphabet.length = 32 ∧
    (getOrCreateRoom registry rid draws now).1.id = rid ∧
    (getOrCreateRoom [] "" draws now).1.id = makeRoomId draws := by
  refine ⟨?_, ?_, by decide, ?_, ?_⟩
  · simp [makeRoomId, String.length]
  · intro c hc
    simp only [makeRoomId, String.toList, List.mem_map] at hc
    obtain ⟨i, _, rfl⟩ := hc
    exact List.get_mem _ _ _
  · simp [getOrCreateRoom, hnew, hne, freshRoomPush]
  · simp [getOrCreateRoom, freshRoomPush, List.lookup]

/-- C4 witness: the format theorem evaluated on the constant draw 0
(yielding `"AAAAAA"`) and the fresh caller-supplied id `"R00M"`. -/
theorem C4_witness :
    (makeRoomId (fun _ => 0)).length = 6 ∧
    (getOrCreateRoom [] "R00M" (fun _ => 0) 3 ).1.id = "R00M" :=
  ⟨(C4_room_id_format (fun _ => 0) [] "R00M" 3 (by decide) (by decide)).1,
   (C4_room_id_format (fun _ => 0) [] "R00M" 3 (by decide) (by decide)).2.2.2.1⟩

/-- C5: when the participant who is host leaves (or disconnects), the
host role is reassigned: if any participant remains, `hostId` becomes the
key of some remaining participant (never null); if none remain, `hostId`
becomes null. -/
theorem C5_host_reassignment (room : RoomPush) (sid : String)
    (hhost : room.hostId = some sid) :
    ((leaveRoom room sid).participants ≠ [] →
      ∃ k, (leaveRoom room sid).hostId = some k ∧
        k ∈ keys (leaveRoom room sid).participants) ∧
    ((leaveRoom room sid).participants = [] → (leaveRoom room sid).hostId = none) := by
  constructor
  · intro hne
    simp only [leaveRoom, hhost, if_pos] at hne ⊢
    cases hps : adelete sid room.participants with
    | nil => exact absurd hps hne
    | cons p t =>
        refine ⟨p.1, ?_, ?_⟩
        · simp [hps, firstKey]
        · simp [hps, keys]
  · intro hempty
    simp only [leaveRoom, hhost, if_pos] at hempty ⊢
    simp [hempty, firstKey]

/-- C5 witness: host `"a"` leaves the sample room; `"b"` remains and is
made host. -/
theorem C5_witness :
    ∃ k, (leaveRoom sampleRoomPush "a").hostId = some k ∧
      k ∈ keys (leaveRoom sampleRoomPush "a").participants :=
  (C5_host_reassignment sampleRoomPush "a" (by decide)).1 (by decide)

/-- C6: the predicate "hostId, when non-null, keys an entry of the
participants map" holds for a freshly created room and is preserved by
join, leave/disconnect, become-host (whose caller, having joined, is a
participant), set-source, each playback command, and posting a chat
message. -/
theorem C6_host_invariant (room : RoomPush) (rq : RoomPull) (sid : String)
    (hinv : roomInvPush room = true) (hinvq : roomInvPull rq = true)
    (hmem : sid ∈ keys room.participants) :
    (∀ rid now, roomInvPush (freshRoomPush rid now) = true) ∧
    (∀ rid now, roomInvPull (freshRoomPull rid now) = true) ∧
    (∀ u name, roomInvPush (joinRoom room u name) = true) ∧
    (∀ u, roomInvPush (leaveRoom room u) = true) ∧
    roomInvPush (becomeHost room sid) = true ∧
    (∀ u p now, roomInvPush (setSourcePush room u p now) = true) ∧
    (∀ u a r t now, roomInvPush (playPush room u a r t now) = true) ∧
    (∀ u a t now, roomInvPush (pausePush room u a t now) = true) ∧
    (∀ u a t now, roomInvPush (seekPush room u a t now) = true) ∧
    (∀ u r t now, roomInvPush (ratePush room u r t now) = true) ∧
    (∀ u name now, roomInvPull (joinPull rq u name now) = true) ∧
    (∀ u src now, roomInvPull (setSourceApi rq u src now).1 = true) ∧
    (∀ u cmd now, roomInvPull (playbackApi rq u cmd now).1 = true) ∧
    (∀ u txt nm now, roomInvPull (postChat rq u txt nm now) = true) := by
  refine ⟨?_, ?_, ?_, ?_, ?_, ?_, ?_, ?_, ?_, ?_, ?_, ?_, ?_, ?_⟩
  · intro rid now
    simp [roomInvPush, freshRoomPush, hostKeyInv]
  · intro rid now
    simp [roomInvPull, freshRoomPull, hostKeyInv]
  · intro u name
    cases hh : room.hostId with
    | none =>
        simp only [roomInvPush, joinRoom, hh, if_pos, hostKeyInv, decide_eq_true_eq]
        exact mem_keys_aset_self u _ room.participants
    | some h =>
        have hmemh : h ∈ keys room.participants := by
          simpa [roomInvPush, hostKeyInv, hh] using hinv
        simp [roomInvPush, joinRoom, hh, hostKeyInv, mem_keys_aset_of_mem hmemh]
  · intro u
    cases hh : room.hostId with
    | none =>
        simp [roomInvPush, leaveRoom, hh, hostKeyInv]
    | some h =>
        by_cases hu : h = u
        · subst hu
          simp only [roomInvPush, leaveRoom, hh, if_pos]
          cases hps : adelete h room.participants with
          | nil => simp [firstKey, hostKeyInv]
          | cons p t =>
              simp only [firstKey, hps, List.head?_cons, Option.map_some, hostKeyInv,
                decide_eq_true_eq]
              simp [keys]
        · have hmemh : h ∈ keys room.participants := by
            simpa [roomInvPush, hostKeyInv, hh] using hinv
          have : (some h = some u) = False := by simp [hu]
          simp only [roomInvPush, leaveRoom, hh, this, if_false, hostKeyInv,
            decide_eq_true_eq]
          exact mem_keys_adelete hmemh hu
  · cases hh : room.hostId with
    | none =>
        simp only [roomInvPush, becomeHost, hh, if_pos, hostKeyInv, decide_eq_true_eq]
        exact hmem
    | some h =>
        simpa [becomeHost, hh] using hinv
  · intro u p now
    simp only [roomInvPush, setSourcePush]
    split
    · exact hinv
    · split
      · exact hinv
      · simpa [roomInvPush, hostKeyInv] using hinv
  · intro u a r t now
    simp only [roomInvPush, playPush]
    split
    · exact hinv
    · simpa [roomInvPush, hostKeyInv] using hinv
  · intro u a t now
    simp only [roomInvPush, pausePush]
    split
    · exact hinv
    · simpa [roomInvPush, hostKeyInv] using hinv
  · intro u a t now
    simp only [roomInvPush, seekPush]
    split
    · exact hinv
    · simpa [roomInvPush, hostKeyInv] using hinv
  · intro u r t now
    simp only [roomInvPush, ratePush]
    split
    · exact hinv
    · simpa [roomInvPush, hostKeyInv] using hinv
  · intro u name now
    cases hh : rq.hostId with
    | none =>
        simp only [roomInvPull, joinPull, hh, if_pos, hostKeyInv, decide_eq_true_eq]
        exact mem_keys_aset_self u _ rq.participants
    | some h =>
        have hmemh : h ∈ keys rq.participants := by
          simpa [roomInvPull, hostKeyInv, hh] using hinvq
        simp [roomInvPull, joinPull, hh, hostKeyInv, mem_keys_aset_of_mem hmemh]
  · intro u src now
    simp only [roomInvPull, setSourceApi]
    split
    · exact hinvq
    · simpa [roomInvPull, hostKeyInv] using hinvq
  · intro u cmd now
    simp only [roomInvPull, playbackApi]
    split
    · exact hinvq
    · simpa [roomInvPull, hostKeyInv] using hinvq
  · intro u txt nm now
    simpa [roomInvPull, postChat, hostKeyInv] using hinvq

/-- C6 witness: the invariant survives a join by the newcomer `"c"` on
the sample push room, and a become-host by the participant `"b"`. -/
theorem C6_witness :
    roomInvPush (joinRoom sampleRoomPush "c" "Carl") = true ∧
    roomInvPush (becomeHost sampleRoomPush "b") = true :=
  ⟨(C6_host_invariant sampleRoomPush sampleRoomPull "b" (by decide) (by decide)
      (by decide)).2.2.1 "c" "Carl",
   (C6_host_invariant sampleRoomPush sampleRoomPull "b" (by decide) (by decide)
      (by decide)).2.2.2.2.1⟩

/-- C7: chat text longer than 1000 characters is stored and broadcast
truncated to exactly its first 1000 characters (pull-mode storage via
`mkChatMessage`, push-mode broadcast via `chatBroadcastText`), the stored
message is the last entry of the room's history after the post, and the
retained history never exceeds 100 entries: once a push makes the length
exceed 100, only the most recent 50 are retained. -/
theorem C7_chat_truncation (rq : RoomPull) (userId : String) (text : List Char)
    (name : String) (now : ℚ) (hlong : 1000 < text.length) :
    (mkChatMessage userId text name now).text = text.take 1000 ∧
    (mkChatMessage userId text name now).text.length = 1000 ∧
    chatBroadcastText text = text.take 1000 ∧
    (postChat rq userId text name now).messages.getLast? =
      some (mkChatMessage userId text name now) ∧
    (postChat rq userId text name now).messages.length ≤ 100 ∧
    (freshRoomPull rq.id now).messages.length = 0 := by
  refine ⟨rfl, ?_, rfl, ?_, ?_, rfl⟩
  · simp only [mkChatMessage, List.length_take]
    omega
  · simp only [postChat]
    split
    · next hgt =>
        have hlen : (rq.messages ++ [mkChatMessage userId text name now]).length
            = rq.messages.length + 1 := by simp
        have hle2 : (rq.messages ++ [mkChatMessage userId text name now]).length - 50
            ≤ rq.messages.length := by omega
        rw [List.drop_append_of_le_length hle2]
        exact List.getLast?_concat _
    · exact List.getLast?_concat _
  · simp only [postChat]
    split
    · next hgt =>
        rw [List.length_drop]
        omega
    · next hle => exact Nat.le_of_not_lt hle

/-- C7 witness: posting a 1001-character message to the sample room stores
it truncated to 1000 characters. -/
theorem C7_witness :
    (mkChatMessage "u1" (List.replicate 1001 'x') "Ann" 9).text.length = 1000 :=
  (C7_chat_truncation sampleRoomPull "u1" (List.replicate 1001 'x') "Ann" 9
    (by simp only [List.length_replicate]; decide)).2.1

/-- C8: each host-issued playback command replaces `playback` with a new
snapshot and preserves the unspecified fields.  Pull mode (`index.js`)
stamps `ts` with the server's `Date.now()`: `play` sets status/at/rate,
`pause` sets status and at but preserves the prior rate, `seek` sets only
at (preserving status and rate), `rate` sets only the rate (preserving
status and at).  Push mode (`server.js`) shows the same frame: `pause`
preserves the prior rate and `seek` preserves the prior status and rate;
there `ts` is the command's own timestamp (the instant the host issued
it), defaulting to the server's `Date.now()` when absent. -/
theorem C8_playback_frame (rq : RoomPull) (rp : RoomPush) (userId sid : String)
    (a t r : ℚ) (atArg toArg tsArg : JsNum) (now : ℚ)
    (hq : rq.hostId = some userId) (hp : rp.hostId = some sid) :
    playbackApi rq userId (.play a r) now =
      ({ rq with playback := ⟨.playing, a, if r = 0 then 1 else r, now⟩ }, .ok) ∧
    playbackApi rq userId (.pause a) now =
      ({ rq with playback := ⟨.paused, a, rq.playback.rate, now⟩ }, .ok) ∧
    playbackApi rq userId (.seek t) now =
      ({ rq with playback := ⟨rq.playback.status, t, rq.playback.rate, now⟩ }, .ok) ∧
    playbackApi rq userId (.setRate r) now =
      ({ rq with playback := ⟨rq.playback.status, rq.playback.at_, r, now⟩ }, .ok) ∧
    (pausePush rp sid atArg tsArg now).playback =
      ⟨.paused, jsOr0 atArg, rp.playback.rate, jsOrD tsArg now⟩ ∧
    (seekPush rp sid toArg tsArg now).playback =
      ⟨rp.playback.status, jsOr0 toArg, rp.playback.rate, jsOrD tsArg now⟩ := by
  refine ⟨?_, ?_, ?_, ?_, ?_, ?_⟩ <;>
    simp [playbackApi, pausePush, seekPush, hq, hp]

/-- C8 witness: the host `"u1"` pausing the sample pull room at 42 yields
a snapshot with the prior rate and `ts` equal to the server instant. -/
theorem C8_witness :
    playbackApi sampleRoomPull "u1" (.pause 42) 900 =
      ({ sampleRoomPull with
          playback := ⟨.paused, 42, sampleRoomPull.playback.rate, 900⟩ }, .ok) :=
  (C8_playback_frame sampleRoomPull sampleRoomPush "u1" "a" 42 0 0 .nan .nan .nan 900
    rfl rfl).2.1

/-- C9: join is idempotent per participant id, for both servers: joining
twice with the same id equals joining once with the latest name (the
second join only overwrites that participant's entry), and a join does
not change `hostId` when it is already non-null. -/
theorem C9_join_idempotent (rq : RoomPull) (rp : RoomPush) (u su nm1 nm2 pn1 pn2 : String)
    (t1 t2 : ℚ) (hq : rq.hostId ≠ none) :
    joinPull (joinPull rq u nm1 t1) u nm2 t2 = joinPull rq u nm2 t2 ∧
    keys (joinPull (joinPull rq u nm1 t1) u nm2 t2).participants =
      keys (joinPull rq u nm2 t2).participants ∧
    (joinPull rq u nm2 t2).hostId = rq.hostId ∧
    joinRoom (joinRoom rp su pn1) su pn2 = joinRoom rp su pn2 := by
  have h1 : joinPull (joinPull rq u nm1 t1) u nm2 t2 = joinPull rq u nm2 t2 := by
    cases hh : rq.hostId <;> simp [joinPull, hh, aset_aset_same]
  refine ⟨h1, by rw [h1], ?_, ?_⟩
  · cases hh : rq.hostId with
    | none => exact absurd hh hq
    | some h => simp [joinPull, hh]
  · cases hh : rp.hostId <;> simp [joinRoom, hh, aset_aset_same]

/-- C9 witness: user `"u3"` joining the sample pull room twice equals
joining once, and the host is unchanged. -/
theorem C9_witness :
    joinPull (joinPull sampleRoomPull "u3" "C" 1) "u3" "D" 2 =
      joinPull sampleRoomPull "u3" "D" 2 ∧
    (joinPull sampleRoomPull "u3" "D" 2).hostId = sampleRoomPull.hostId :=
  ⟨(C9_join_idempotent sampleRoomPull sampleRoomPush "u3" "s" "C" "D" "P" "Q" 1 2
      (by decide)).1,
   (C9_join_idempotent sampleRoomPull sampleRoomPush "u3" "s" "C" "D" "P" "Q" 1 2
      (by decide)).2.2.1⟩

/-- C10: in the push-mode server the stored `playback.rate` is never 0
(and, the coercion `Number(rate) || 1` being total into the rationals,
never NaN): it is 1 on a fresh room, every accepted command preserves
non-zero-ness, a host command carrying rate 0 (or a missing/non-numeric
rate) stores rate 1, and a missing/non-numeric `at`/`to` is coerced
to 0. -/
theorem C10_rate_coercion (rp : RoomPush) (sid : String)
    (hrate : rp.playback.rate ≠ 0) :
    (∀ x, jsOr1 x ≠ 0) ∧
    jsOr1 (.num 0) = 1 ∧ jsOr1 .nan = 1 ∧ jsOr0 .nan = 0 ∧
    (∀ rid now, (freshRoomPush rid now).playback.rate = 1) ∧
    (∀ u a r t now, (playPush rp u a r t now).playback.rate ≠ 0) ∧
    (∀ u a t now, (pausePush rp u a t now).playback.rate ≠ 0) ∧
    (∀ u a t now, (seekPush rp u a t now).playback.rate ≠ 0) ∧
    (∀ u r t now, (ratePush rp u r t now).playback.rate ≠ 0) ∧
    (∀ u p now, (setSourcePush rp u p now).playback.rate ≠ 0) ∧
    (∀ t now, rp.hostId = some sid →
      (ratePush rp sid (.num 0) t now).playback.rate = 1 ∧
      (playPush rp sid .nan (.num 0) t now).playback.rate = 1) := by
  have hj : ∀ x, jsOr1 x ≠ 0 := by
    intro x
    cases x with
    | num q =>
        by_cases h : q = 0 <;> simp [jsOr1, h]
    | nan => simp [jsOr1]
  refine ⟨hj, by simp [jsOr1], rfl, rfl, fun rid now => rfl, ?_, ?_, ?_, ?_, ?_, ?_⟩
  · intro u a r t now
    simp only [playPush]
    split
    · exact hrate
    · exact hj r
  · intro u a t now
    simp only [pausePush]
    split
    · exact hrate
    · exact hrate
  · intro u a t now
    simp only [seekPush]
    split
    · exact hrate
    · exact hrate
  · intro u r t now
    simp only [ratePush]
    split
    · exact hrate
    · exact hj r
  · intro u p now
    simp only [setSourcePush]
    split
    · exact hrate
    · split
      · exact hrate
      · simp
  · intro t now hh
    constructor
    · simp [ratePush, hh, jsOr1]
    · simp [playPush, hh, jsOr1]

/-- C10 witness: the host asking for rate 0 on the sample push room ends
up with rate 1. -/
theorem C10_witness :
    (ratePush sampleRoomPush "a" (.num 0) (.num 5) 99).playback.rate = 1 :=
  ((C10_rate_coercion sampleRoomPush "a" (by decide)).2.2.2.2.2.2.2.2.2.2
    (.num 5) 99 rfl).1
